import Mathlib

/-!
Verification of the VoteChain frontend election logic.

The repository's election logic lives in two browser modules:
`src/js/admin.js` (election creation, validation, live tally, final results)
and `src/js/app.js` (voter-facing election list, ballot, results).  Both read
contract state through `getElection` / `getCandidate` / `hasVoted`; we model a
read of the candidates of one election as a function `store : Nat → CandidateData`
(the value of `getCandidate(electionId, i)`), and timestamps as natural numbers
of seconds, exactly as the code produces them with `Math.floor(Date.now()/1000)`.

JavaScript's `Array.prototype.sort` is required by ECMAScript 2019+ to be
stable; the single comparator used by the code, `(a, b) => b.votes - a.votes`,
is a consistent comparator for the total preorder "votes descending", so every
stable sort produces the same output and we model it with insertion sort by
`fun a b => b.votes ≤ a.votes`, which is stable.
-/

namespace VoteChain

/-- A candidate as both frontends read it from the contract: the tuple
`(id, name, party, voteCount)` returned by `getCandidate` (admin.js 499-505,
app.js 333-340), with `toNumber()` applied to the numeric fields. -/
structure CandidateData where
  id : Nat
  name : String
  party : String
  votes : Nat
  deriving Repr, DecidableEq

/-- The three status strings assigned by admin.js `getElectionStatus` and by
the voter list in app.js `loadActiveElections`. -/
inductive Status where
  | Upcoming
  | Active
  | Ended
  deriving Repr, DecidableEq

/-- admin.js `getElectionStatus` (lines 416-429): status starts as `Upcoming`,
becomes `Active` when `now >= startTime && now < endTime`, else `Ended` when
`now >= endTime`. -/
def getElectionStatus (startTime endTime now : Nat) : Status :=
  if now ≥ startTime ∧ now < endTime then .Active
  else if now ≥ endTime then .Ended
  else .Upcoming

/-- The action control a voter row can carry in app.js `loadActiveElections`
(lines 163-180): an enabled Vote-Now button, a disabled Already-Voted button,
a View-Results button, or the "Not started yet" text. -/
inductive VoterAction where
  | voteNow
  | alreadyVoted
  | viewResults
  | notStarted
  deriving Repr, DecidableEq

/-- app.js `loadActiveElections` (lines 163-180): when
`now >= startTime && now < endTime` the row is Active and the contract's
`hasVoted` answer for the current account selects between the disabled
Already-Voted button and the Vote-Now button; otherwise `now >= endTime`
gives View-Results and the remaining case shows "Not started yet". -/
def voterAction (startTime endTime now : Nat) (hasVoted : Bool) : VoterAction :=
  if now ≥ startTime ∧ now < endTime then
    if hasVoted then .alreadyVoted else .voteNow
  else if now ≥ endTime then .viewResults
  else .notStarted

/-- The fetch loop shared by every tally path: candidates are read with
`getCandidate(electionId, i)` for `i = 1 .. candidateCount`, in ascending
order (admin.js 498-509, 594-607; app.js 332-341). -/
def fetchCandidates (store : Nat → CandidateData) (count : Nat) : List CandidateData :=
  (List.range' 1 count).map store

/-- admin.js `getCandidatesData` (lines 494-513): fetch candidates 1..count,
accumulate `totalVotes`, then `candidates.sort((a, b) => b.votes - a.votes)` —
a stable sort by votes descending, modelled by insertion sort. -/
def getCandidatesData (store : Nat → CandidateData) (count : Nat) :
    List CandidateData × Nat :=
  let fetched := fetchCandidates store count
  (List.insertionSort (fun a b => b.votes ≤ a.votes) fetched,
    (fetched.map (fun c => c.votes)).sum)

/-- app.js `viewElectionResults` (lines 329-344): the voter-side results page
fetches candidates 1..count, sums `totalVotes`, and sorts by votes descending
with the same comparator as the admin live tally. -/
def viewElectionResultsData (store : Nat → CandidateData) (count : Nat) :
    List CandidateData × Nat :=
  let fetched := fetchCandidates store count
  (List.insertionSort (fun a b => b.votes ≤ a.votes) fetched,
    (fetched.map (fun c => c.votes)).sum)

/-- admin.js `buildResultsHTML` (lines 576-622): the admin final-results view
fetches candidates 1..count and renders them in that fetch order — it never
sorts — while accumulating `totalVotes` for the footer row. -/
def buildResultsData (store : Nat → CandidateData) (count : Nat) :
    List CandidateData × Nat :=
  let fetched := fetchCandidates store count
  (fetched, (fetched.map (fun c => c.votes)).sum)

/-- The per-candidate percentage computed in admin.js `displayTallyResults`
(lines 524-527) and app.js `viewElectionResults` (line 347):
`totalVotes > 0 ? (candidate.votes / totalVotes) * 100 : 0`.  The JavaScript
number division is modelled as exact rational division; `toFixed` only formats
the value for display. -/
def percentage (votes totalVotes : Nat) : ℚ :=
  if 0 < totalVotes then ((votes : ℚ) / (totalVotes : ℚ)) * 100 else 0

/-- admin.js `displayTallyResults` (lines 518-543): each tally card shows the
candidate together with its computed percentage. -/
def displayTallyResults (candidates : List CandidateData) (totalVotes : Nat) :
    List (CandidateData × ℚ) :=
  candidates.map (fun c => (c, percentage c.votes totalVotes))

/-- What admin.js `updateLiveTally` renders: either the early no-candidates
message or the tally of an election. -/
inductive TallyReport where
  | noCandidates
  | results (name : String) (candidates : List CandidateData) (totalVotes : Nat)
  deriving Repr, DecidableEq

/-- admin.js `updateLiveTally` (lines 462-489): when `candidateCount === 0`
it shows "No candidates found for this election" and returns without
computing a tally; otherwise it computes `getCandidatesData` and displays it. -/
def updateLiveTally (name : String) (candidateCount : Nat)
    (store : Nat → CandidateData) : TallyReport :=
  if candidateCount = 0 then .noCandidates
  else
    let data := getCandidatesData store candidateCount
    .results name data.1 data.2

/-- One entry of the candidate list collected from the creation form:
`{ name, party }` as pushed by admin.js `collectCandidates`. -/
structure CandidateEntry where
  name : String
  party : String
  deriving Repr, DecidableEq

/-- The form data assembled by admin.js `getFormData` (lines 203-215):
election name, start and end timestamps in seconds, and the collected
candidate entries. -/
structure FormData where
  electionName : String
  startDate : Nat
  endDate : Nat
  candidates : List CandidateEntry
  deriving Repr, DecidableEq

/-- admin.js `validateFormData` (lines 254-273): reject when
`formData.startDate < now`, then when `formData.endDate <= formData.startDate`,
then when fewer than two candidates were collected; otherwise accept. -/
def validateFormData (formData : FormData) (now : Nat) : Bool :=
  if formData.startDate < now then false
  else if formData.endDate ≤ formData.startDate then false
  else if formData.candidates.length < 2 then false
  else true

/-- A contract transaction issued by the admin creation flow:
`createElection(name, startDate, endDate)` or
`addCandidate(electionId, name, party)`. -/
inductive ChainCall where
  | createElection (name : String) (startDate endDate : Nat)
  | addCandidate (electionId : Nat) (name party : String)
  deriving Repr, DecidableEq

/-- admin.js `createElection` (lines 173-198): `validateFormData` runs first
and on failure the handler returns before any contract interaction; on success
`createElectionOnBlockchain` issues the `createElection` transaction and
`addCandidatesToElection` (lines 297-303) issues one awaited `addCandidate`
transaction per collected entry, in list order.  The value is the sequence of
contract calls issued, given the election id the chain assigns. -/
def createElectionCalls (formData : FormData) (now : Nat) (electionId : Nat) :
    List ChainCall :=
  if validateFormData formData now then
    ChainCall.createElection formData.electionName formData.startDate formData.endDate ::
      formData.candidates.map (fun c => ChainCall.addCandidate electionId c.name c.party)
  else []

/-- admin.js `collectCandidates` (lines 233-249): loop `i = 1 .. candidateCounter`;
a row may have been removed (its DOM element absent, modelled by `none`), and a
present row contributes an entry only when both the name and the party field
are non-empty (JavaScript truthiness of strings). -/
def collectCandidates (rows : Nat → Option (String × String)) (counter : Nat) :
    List CandidateEntry :=
  (List.range' 1 counter).filterMap (fun i =>
    (rows i).bind (fun r => if r.1 ≠ "" ∧ r.2 ≠ "" then some ⟨r.1, r.2⟩ else none))

/-- `collectCandidates` with each kept entry paired with the form index it
came from; used to state that collection preserves ascending form-index
order. -/
def collectCandidatesIndexed (rows : Nat → Option (String × String)) (counter : Nat) :
    List (Nat × CandidateEntry) :=
  (List.range' 1 counter).filterMap (fun i =>
    (rows i).bind (fun r => if r.1 ≠ "" ∧ r.2 ≠ "" then some (i, ⟨r.1, r.2⟩) else none))

/-- admin.js `getFormData` (lines 203-215): the candidate list of the submitted
form data is exactly `collectCandidates`. -/
def getFormData (electionName : String) (startDate endDate : Nat)
    (rows : Nat → Option (String × String)) (counter : Nat) : FormData :=
  ⟨electionName, startDate, endDate, collectCandidates rows counter⟩

/-- A candidate as stored by the contract after `addCandidate`. -/
structure StoredCandidate where
  id : Nat
  name : String
  party : String
  deriving Repr, DecidableEq

/-- Modelled from the spec: the contract's `addCandidate` is not under `src/`
(only its caller admin.js `addCandidatesToElection`, lines 297-303, is); the
spec says it "Assigns next sequential id scoped to the election, starting
at 1".  The caller awaits each `addCandidate` before issuing the next, so the
batch is a sequential loop threading the election's candidate count. -/
def addCandidatesLoop (startCount : Nat) : List CandidateEntry → List StoredCandidate
  | [] => []
  | c :: rest => ⟨startCount + 1, c.name, c.party⟩ :: addCandidatesLoop (startCount + 1) rest

/-- The strict ranking the tally claim asserts of the sorted output: earlier
means strictly more votes, or equal votes and smaller candidate id. -/
def tallyRank (a b : CandidateData) : Prop :=
  b.votes < a.votes ∨ (a.votes = b.votes ∧ a.id < b.id)

/-- A concrete two-candidate store in which candidate 2 holds the only vote. -/
def storeTwoOne : Nat → CandidateData :=
  fun i => ⟨i, "c", "p", if i = 2 then 1 else 0⟩

/-- A concrete store in which every candidate has exactly one vote. -/
def storeA : Nat → CandidateData :=
  fun i => ⟨i, "a", "p", 1⟩

/-- A concrete store that agrees with `storeA` everywhere except at index 0,
which no fetch loop ever reads. -/
def storeB : Nat → CandidateData :=
  fun i => ⟨i, "a", "p", if i = 0 then 5 else 1⟩

/-- A concrete three-candidate store with a tie between candidates 1 and 3. -/
def storeW : Nat → CandidateData :=
  fun i => ⟨i, "w", "q", if i = 2 then 3 else 1⟩

/-- Concrete form data whose start time will be compared against an equal
current time. -/
def fdBoundary : FormData :=
  ⟨"E", 100, 200, [⟨"A", "P"⟩, ⟨"B", "Q"⟩]⟩

/-- Concrete form data whose start time lies in the past. -/
def fdPast : FormData :=
  ⟨"E", 50, 200, [⟨"A", "P"⟩, ⟨"B", "Q"⟩]⟩

/-- Concrete form rows: row 1 is complete, row 2 has an empty name, row 3 was
removed. -/
def rowsW : Nat → Option (String × String) :=
  fun i => if i = 1 then some ("A", "P") else if i = 2 then some ("", "Q") else none

/-- C4: getElectionStatus is a pure function of now versus the half-open
window from startTime to endTime: it returns Active iff
now ≥ startTime and now < endTime, Ended iff not Active and now ≥ endTime,
and Upcoming exactly when it is neither Active nor Ended — so exactly one of
the three statuses holds. -/
theorem getElectionStatus_spec (startTime endTime now : Nat) :
    (getElectionStatus startTime endTime now = .Active ↔
      now ≥ startTime ∧ now < endTime)
    ∧ (getElectionStatus startTime endTime now = .Ended ↔
      ¬(now ≥ startTime ∧ now < endTime) ∧ now ≥ endTime)
    ∧ (getElectionStatus startTime endTime now = .Upcoming ↔
      getElectionStatus startTime endTime now ≠ .Active ∧
      getElectionStatus startTime endTime now ≠ .Ended) := by
  unfold getElectionStatus
  split_ifs with h1 h2 <;> simp_all

/-- C5: in the voter-facing election list, the enabled Vote-Now action is
offered iff the election is active (now ≥ startTime and now < endTime) and
hasVoted for the current voter is false, and the disabled Already-Voted
control is shown iff the election is active and hasVoted is true. -/
theorem voterAction_spec (startTime endTime now : Nat) (hasVoted : Bool) :
    (voterAction startTime endTime now hasVoted = .voteNow ↔
      (now ≥ startTime ∧ now < endTime) ∧ hasVoted = false)
    ∧ (voterAction startTime endTime now hasVoted = .alreadyVoted ↔
      (now ≥ startTime ∧ now < endTime) ∧ hasVoted = true) := by
  unfold voterAction
  split_ifs <;> simp_all

/-- C9: when candidateCount is 0 the live-tally path returns the
no-candidates report without computing a tally, and the candidate-data
computation on a zero count yields the empty candidate list with
totalVotes = 0. -/
theorem updateLiveTally_zero_candidates (name : String)
    (store : Nat → CandidateData) :
    updateLiveTally name 0 store = .noCandidates
    ∧ getCandidatesData store 0 = ([], 0) :=
  ⟨rfl, rfl⟩

/-- C2 fails as stated: with two candidates of which candidate 2 holds the
only vote, the admin live tally presents candidate 2 first while the admin
final-results view presents the fetch order 1, 2 — the two paths do not
present the candidates in the same order. -/
theorem live_vs_final_order_differs :
    (getCandidatesData storeTwoOne 2).1 ≠ (buildResultsData storeTwoOne 2).1 := by
  decide

/-- C2 amended: for every store state the admin live tally and the admin
final-results view compute the same totalVotes and the same collection of
candidate rows (the live tally's list is a permutation of the final view's
list), but not necessarily in the same order: the live tally sorts by votes
descending while the final-results view keeps ascending fetch order. -/
theorem live_vs_final_same_counts (store : Nat → CandidateData) (count : Nat) :
    (getCandidatesData store count).2 = (buildResultsData store count).2
    ∧ (getCandidatesData store count).1.Perm (buildResultsData store count).1 :=
  ⟨rfl, List.perm_insertionSort _ _⟩

/-- C8: the tally is deterministic and idempotent — it is a pure function of
the candidate rows read from the store, so any two runs over the same store
state (same candidates and vote counts, no intervening votes) return
identical candidate ordering, identical per-candidate counts, and identical
totalVotes. -/
theorem getCandidatesData_deterministic (store1 store2 : Nat → CandidateData)
    (count : Nat) (h : ∀ i, 1 ≤ i → i ≤ count → store1 i = store2 i) :
    getCandidatesData store1 count = getCandidatesData store2 count := by
  have hf : fetchCandidates store1 count = fetchCandidates store2 count := by
    apply List.map_congr_left
    intro i hi
    rw [List.mem_range'_1] at hi
    exact h i hi.1 (by omega)
  simp only [getCandidatesData, hf]

/-- The deterministic-tally theorem applied to two concrete stores that agree
on the fetched range 1..2 but differ at the never-read index 0. -/
theorem getCandidatesData_deterministic_witness :
    getCandidatesData storeA 2 = getCandidatesData storeB 2 :=
  getCandidatesData_deterministic storeA storeB 2
    (fun i h1 _ => by
      have hne : i ≠ 0 := by omega
      simp [storeA, storeB, hne])

/-- C6: every percentage computed by the tally display equals
voteCount / totalVotes * 100 when totalVotes > 0, and equals 0 for every
candidate when totalVotes = 0; the zero-vote case is an ordinary defined
value of the same total function, not an error state. -/
theorem displayTallyResults_percentage_spec (store : Nat → CandidateData)
    (count : Nat) :
    ∀ p ∈ displayTallyResults (getCandidatesData store count).1
        (getCandidatesData store count).2,
      (0 < (getCandidatesData store count).2 →
        p.2 = ((p.1.votes : ℚ) / ((getCandidatesData store count).2 : ℚ)) * 100)
      ∧ ((getCandidatesData store count).2 = 0 → p.2 = 0) := by
  intro p hp
  unfold displayTallyResults at hp
  rcases List.mem_map.mp hp with ⟨c, _, rfl⟩
  constructor
  · intro hpos
    simp [percentage, hpos]
  · intro hzero
    simp [percentage, hzero]

/-- The percentage theorem applied to a concrete store with two candidates
holding one vote each: candidate 1 with 1 of 2 votes shows 1 / 2 * 100. -/
theorem displayTallyResults_percentage_witness :
    0 < (getCandidatesData storeA 2).2
    ∧ ((⟨1, "a", "p", 1⟩ : CandidateData),
        percentage (⟨1, "a", "p", 1⟩ : CandidateData).votes
          (getCandidatesData storeA 2).2).2
      = (((⟨1, "a", "p", 1⟩ : CandidateData).votes : ℚ) /
          ((getCandidatesData storeA 2).2 : ℚ)) * 100 :=
  ⟨by decide,
    (displayTallyResults_percentage_spec storeA 2
      ((⟨1, "a", "p", 1⟩ : CandidateData),
        percentage (⟨1, "a", "p", 1⟩ : CandidateData).votes
          (getCandidatesData storeA 2).2)
      (List.mem_map_of_mem _ (by decide))).1 (by decide)⟩

/-- Inserting a candidate whose id is below every id in an already ranked
list preserves the ranking: the stability step for the vote-descending
insertion sort. -/
theorem pairwise_tallyRank_orderedInsert (x : CandidateData)
    (l : List CandidateData) (hl : l.Pairwise tallyRank)
    (hid : ∀ b ∈ l, x.id < b.id) :
    (List.orderedInsert (fun a b => b.votes ≤ a.votes) x l).Pairwise tallyRank := by
  induction l with
  | nil =>
    simp [List.orderedInsert, tallyRank]
  | cons b t ih =>
    rw [List.orderedInsert]
    have hbt := List.pairwise_cons.mp hl
    split_ifs with hxb
    · refine List.Pairwise.cons ?_ hl
      intro y hy
      rcases List.mem_cons.mp hy with rfl | hyt
      · have hidb := hid y (List.mem_cons_self _ _)
        unfold tallyRank
        omega
      · have hby := hbt.1 y hyt
        have hidy := hid y (List.mem_cons_of_mem b hyt)
        unfold tallyRank at hby ⊢
        omega
    · refine List.Pairwise.cons ?_
        (ih hbt.2 (fun c hc => hid c (List.mem_cons_of_mem b hc)))
      intro y hy
      rcases (List.mem_orderedInsert _).mp hy with rfl | hyt
      · unfold tallyRank
        omega
      · exact hbt.1 y hyt

/-- Stability of the vote-descending insertion sort: an input strictly
ascending in candidate id sorts to a strictly ranked list — votes descending
with ties in ascending id order. -/
theorem pairwise_tallyRank_insertionSort (l : List CandidateData)
    (hl : l.Pairwise (fun a b => a.id < b.id)) :
    (List.insertionSort (fun a b => b.votes ≤ a.votes) l).Pairwise tallyRank := by
  induction l with
  | nil => simp
  | cons x t ih =>
    rw [List.insertionSort]
    have hxt := List.pairwise_cons.mp hl
    refine pairwise_tallyRank_orderedInsert x _ (ih hxt.2) ?_
    intro b hb
    exact hxt.1 b ((List.perm_insertionSort _ t).mem_iff.mp hb)

/-- Candidates fetched in ascending query order 1..count carry strictly
increasing ids, given that the store answers query i with the candidate of
id i. -/
theorem fetchCandidates_pairwise_id (store : Nat → CandidateData) (count : Nat)
    (hid : ∀ i, 1 ≤ i → i ≤ count → (store i).id = i) :
    (fetchCandidates store count).Pairwise (fun a b => a.id < b.id) := by
  unfold fetchCandidates
  rw [List.pairwise_map]
  refine (List.pairwise_lt_range' 1 count).imp_of_mem ?_
  intro a b ha hb hab
  rw [List.mem_range'_1] at ha hb
  rw [hid a ha.1 (by omega), hid b hb.1 (by omega)]
  exact hab

/-- C1: when candidates are fetched in ascending id order (the store answers
query i, for i in 1..candidateCount, with the candidate of id i), the stable
vote-descending sort returns them ordered by vote count descending with ties
broken by ascending candidate id; the voter-side results page performs the
identical computation. -/
theorem tally_sorted_desc_ties_asc (store : Nat → CandidateData) (count : Nat)
    (hid : ∀ i, 1 ≤ i → i ≤ count → (store i).id = i) :
    (getCandidatesData store count).1.Pairwise
      (fun a b => b.votes ≤ a.votes ∧ (a.votes = b.votes → a.id < b.id))
    ∧ viewElectionResultsData store count = getCandidatesData store count := by
  constructor
  · have h := pairwise_tallyRank_insertionSort (fetchCandidates store count)
      (fetchCandidates_pairwise_id store count hid)
    refine h.imp ?_
    intro a b hab
    unfold tallyRank at hab
    exact ⟨by omega, fun he => by omega⟩
  · rfl

/-- The sortedness theorem applied to a concrete store of three candidates
with a tie between candidates 1 and 3. -/
theorem tally_sorted_desc_ties_asc_witness :
    (getCandidatesData storeW 3).1.Pairwise
      (fun a b => b.votes ≤ a.votes ∧ (a.votes = b.votes → a.id < b.id))
    ∧ viewElectionResultsData storeW 3 = getCandidatesData storeW 3 :=
  tally_sorted_desc_ties_asc storeW 3 (fun _ _ _ => rfl)

/-- The acceptance condition of admin.js validateFormData, spelled out. -/
theorem validateFormData_eq_true_iff (fd : FormData) (now : Nat) :
    validateFormData fd now = true ↔
      now ≤ fd.startDate ∧ fd.startDate < fd.endDate ∧
        2 ≤ fd.candidates.length := by
  unfold validateFormData
  split_ifs <;> simp_all

/-- C3 fails as stated at the boundary: a request whose startTime equals the
current time is accepted by validateFormData — the code rejects only
startDate strictly less than now. -/
theorem validate_accepts_start_eq_now :
    validateFormData fdBoundary 100 = true := by
  decide

/-- C3 amended: validation runs before any contract call and rejects the
request when endTime ≤ startTime or when startTime is strictly before the
current time at call time; a request whose startTime equals the current time
passes the start-time check and, with a valid window and at least two
candidates, is accepted. -/
theorem validate_rejects_past_start_and_bad_window (fd : FormData)
    (now electionId : Nat) :
    ((fd.startDate < now ∨ fd.endDate ≤ fd.startDate) →
      createElectionCalls fd now electionId = [])
    ∧ (fd.startDate = now → fd.startDate < fd.endDate →
      2 ≤ fd.candidates.length → validateFormData fd now = true) := by
  constructor
  · intro h
    have hv : ¬validateFormData fd now = true := by
      rw [validateFormData_eq_true_iff]
      omega
    unfold createElectionCalls
    simp [hv]
  · intro h1 h2 h3
    rw [validateFormData_eq_true_iff]
    omega

/-- The amended validation theorem applied to concrete form data: a past
start is rejected with no contract call, and a start equal to the current
time is accepted. -/
theorem validate_rejects_past_start_witness :
    createElectionCalls fdPast 100 1 = []
    ∧ validateFormData fdBoundary 100 = true :=
  ⟨(validate_rejects_past_start_and_bad_window fdPast 100 1).1
      (Or.inl (by decide)),
    (validate_rejects_past_start_and_bad_window fdBoundary 100 1).2
      rfl (by decide) (by decide)⟩

/-- C7: every entry of the candidate list collected by the election-creation
form has a non-empty name and a non-empty party, and when the collected list
has fewer than two entries the flow is rejected by validateFormData before
any contract call — no election and no candidate is created. -/
theorem collectCandidates_valid_and_min_two (electionName : String)
    (startDate endDate : Nat) (rows : Nat → Option (String × String))
    (counter now electionId : Nat) :
    (∀ c ∈ (getFormData electionName startDate endDate rows counter).candidates,
      c.name ≠ "" ∧ c.party ≠ "")
    ∧ ((getFormData electionName startDate endDate rows counter).candidates.length < 2 →
      createElectionCalls (getFormData electionName startDate endDate rows counter)
        now electionId = []) := by
  constructor
  · intro c hc
    unfold getFormData collectCandidates at hc
    simp only [List.mem_filterMap] at hc
    rcases hc with ⟨i, _, hi⟩
    rcases Option.bind_eq_some.mp hi with ⟨r, _, hr⟩
    split_ifs at hr with hnp
    injection hr with h
    rw [← h]
    exact hnp
  · intro hlen
    have hv : ¬validateFormData
        (getFormData electionName startDate endDate rows counter) now = true := by
      rw [validateFormData_eq_true_iff]
      omega
    unfold createElectionCalls
    simp [hv]

/-- The collection theorem applied to concrete rows where row 1 is complete,
row 2 has an empty name, and row 3 was removed: the kept entry is non-empty,
and the resulting single-entry form is rejected with no contract call. -/
theorem collectCandidates_valid_and_min_two_witness :
    ((⟨"A", "P"⟩ : CandidateEntry).name ≠ ""
      ∧ (⟨"A", "P"⟩ : CandidateEntry).party ≠ "")
    ∧ createElectionCalls (getFormData "E" 100 200 rowsW 3) 50 1 = [] :=
  ⟨(collectCandidates_valid_and_min_two "E" 100 200 rowsW 3 50 1).1
      ⟨"A", "P"⟩ (by decide),
    (collectCandidates_valid_and_min_two "E" 100 200 rowsW 3 50 1).2 (by decide)⟩

/-- Sequential id assignment in the candidate-addition loop, threading the
election's current candidate count. -/
theorem addCandidatesLoop_getElem (entries : List CandidateEntry) :
    ∀ n k : Nat, (addCandidatesLoop n entries)[k]? =
      (entries[k]?).map (fun e => ⟨n + k + 1, e.name, e.party⟩) := by
  induction entries with
  | nil =>
    intro n k
    simp [addCandidatesLoop]
  | cons c rest ih =>
    intro n k
    cases k with
    | zero => simp [addCandidatesLoop]
    | succ k =>
      simp only [addCandidatesLoop, List.getElem?_cons_succ]
      rw [ih (n + 1) k]
      have harith : n + 1 + k + 1 = n + (k + 1) + 1 := by omega
      simp only [harith]

/-- A kept entry of the indexed collection carries the form index it was read
from. -/
theorem collectCandidatesIndexed_fst (rows : Nat → Option (String × String))
    (i : Nat) (x : Nat × CandidateEntry)
    (hx : ((rows i).bind (fun r =>
      if r.1 ≠ "" ∧ r.2 ≠ "" then some (i, ⟨r.1, r.2⟩) else none)) = some x) :
    x.1 = i := by
  rcases Option.bind_eq_some.mp hx with ⟨r, _, hr⟩
  split_ifs at hr
  injection hr with h
  rw [← h]

/-- C10: the collection step scans form indices in ascending order, skipping
removed or incomplete rows, so the collected entries stand in ascending
form-index order; the addition loop then awaits each addCandidate in list
order, so the k-th collected entry becomes the election's candidate with
sequential id k (counting from 1, stated with k + 1 over zero-based list
indices). -/
theorem candidates_added_in_form_order (rows : Nat → Option (String × String))
    (counter : Nat) (entries : List CandidateEntry) :
    (collectCandidatesIndexed rows counter).map Prod.snd
        = collectCandidates rows counter
    ∧ (collectCandidatesIndexed rows counter).Pairwise (fun a b => a.1 < b.1)
    ∧ (∀ (k : Nat) (e : CandidateEntry), entries[k]? = some e →
      (addCandidatesLoop 0 entries)[k]? = some ⟨k + 1, e.name, e.party⟩) := by
  refine ⟨?_, ?_, ?_⟩
  · unfold collectCandidatesIndexed collectCandidates
    rw [List.map_filterMap]
    apply List.filterMap_congr
    intro i _
    cases hri : rows i with
    | none => rfl
    | some r =>
      by_cases h : r.1 ≠ "" ∧ r.2 ≠ ""
      · simp [h]
      · simp [h]
  · unfold collectCandidatesIndexed
    refine List.Pairwise.filterMap _ ?_ (List.pairwise_lt_range' 1 counter)
    intro a b hab x hx y hy
    rw [Option.mem_def] at hx hy
    rw [collectCandidatesIndexed_fst rows a x hx,
      collectCandidatesIndexed_fst rows b y hy]
    exact hab
  · intro k e hk
    rw [addCandidatesLoop_getElem entries 0 k, hk]
    simp

/-- The sequential-addition theorem applied to a concrete two-entry batch:
the second collected entry becomes the candidate with id 2. -/
theorem candidates_added_in_form_order_witness :
    (addCandidatesLoop 0 [⟨"A", "P"⟩, ⟨"B", "Q"⟩])[1]? = some ⟨2, "B", "Q"⟩ :=
  (candidates_added_in_form_order rowsW 3 [⟨"A", "P"⟩, ⟨"B", "Q"⟩]).2.2
    1 ⟨"B", "Q"⟩ rfl

end VoteChain
